import Mathlib

/-!
Shallow embedding of the scheduled-task and tool-dispatch engine of the
`tron` repository (Go), covering:

* the schedule calculus in `reminder/store.go` (`CalculateNextRun` and the
  per-kind parsers `parseOnce`, `parseDaily`, `parseHourly`, `parseInterval`,
  `parseCron`);
* the task store operations `GetByID`, `ListDue`, `MarkExecuted`
  (`reminder/store.go`), with the SQLite table modelled as a list of rows;
* the reminder scheduler `executeReminder` / `RunNow` (reminder scheduler
  file);
* the plugin manager in `plugins/plugins.go` (`loadPlugin`, `loadPlugins`,
  `Execute`, `ExecuteWithContext`), with the filesystem modelled as the
  observations the code makes of it;
* the conversation orchestration loop `Handler.HandleMessage` (bot handler
  file), with the LLM modelled as a finite script of responses.

Modelling conventions:

* Instants are `Int` values counting seconds since the Unix epoch (Go's
  `time.Time` at second granularity; none of the verified code inspects
  sub-second fields).
* A `*time.Location` enters through the two observations the verified code
  makes of it (`GoLocation`): the zone's UTC offset in effect at a given
  instant (Go's `lookup`, used whenever an instant is read as a wall clock
  through `t.In(loc)`), and the civil-time→instant mapping computed by
  `time.Date`/`time.ParseInLocation`.  This representation expresses zones
  with DST transitions; a zone without transitions is `GoLocation.fixed off`.
  Go resolves zone names through the external tzdata database, which is not
  part of this repository, so `time.LoadLocation` is a parameter
  (`TimeLib.loadLocation`); concrete zones used by theorems (UTC, and
  America/Los_Angeles across its November 2024 fall-back transition)
  instantiate both observations consistently with Go's algorithm.
* The external libraries `time.ParseDuration` and `robfig/cron` are likewise
  parameters of the embedding (`TimeLib.parseDuration`, `TimeLib.cronParse`):
  they are not code of this repository, and no claim depends on their
  internals — only on how `CalculateNextRun` and `MarkExecuted` route through
  them.
* Fallible Go functions returning `(T, error)` become `Except String T`;
  the error strings mirror the Go `fmt.Errorf` formats where they matter.
-/

namespace Tron

/-! ## Zones and wall-clock decomposition -/

/-- The two observations the verified code makes of a `*time.Location`:
`offsetAt t` is the zone's UTC offset (seconds east of UTC) in effect at
instant `t` — Go's `lookup`, applied whenever an instant is read as a wall
clock via `t.In(loc)` — and `date l` is the instant Go's `time.Date` (and
`time.ParseInLocation`) returns for the requested civil time `l`, given as
seconds of local calendar time since the epoch, computed by Go from the
zone's transition data with its lookup-and-adjust algorithm.  A zone without
transitions has constant `offsetAt` and `date l = l - off`.  Theorems
quantify over arbitrary pairs (a superset of the real zones); the concrete
zones below instantiate both fields consistently with Go. -/
structure GoLocation where
  offsetAt : Int → Int
  date : Int → Int

/-- A zone with constant UTC offset `off` and no transitions (Go's
`time.FixedZone`; `time.UTC` is `fixed 0`). -/
def GoLocation.fixed (off : Int) : GoLocation :=
  { offsetAt := fun _ => off, date := fun l => l - off }

/-- The local calendar time of instant `t` in zone `loc`, as seconds since
the epoch of the local calendar: Go's `t.In(loc)` reading. -/
def localCivil (loc : GoLocation) (t : Int) : Int := t + loc.offsetAt t

def localSecOfDay (loc : GoLocation) (t : Int) : Int := localCivil loc t % 86400

def localDay (loc : GoLocation) (t : Int) : Int := localCivil loc t / 86400

def localHour (loc : GoLocation) (t : Int) : Int := localSecOfDay loc t / 3600

def localMinute (loc : GoLocation) (t : Int) : Int := localSecOfDay loc t % 3600 / 60

def localSecond (loc : GoLocation) (t : Int) : Int := localSecOfDay loc t % 60

/-! ## Models of Go standard-library string helpers -/

/-- Model of `strings.Split(s, sep)` for a one-character separator, on the
character list of the string: splitting never returns an empty list, and
separators delimit (possibly empty) fields. -/
def splitOnChar (sep : Char) : List Char → List (List Char)
  | [] => [[]]
  | c :: rest =>
    if c = sep then [] :: splitOnChar sep rest
    else
      match splitOnChar sep rest with
      | [] => [[c]]
      | g :: gs => (c :: g) :: gs

def digitVal (c : Char) : Int := Int.ofNat (c.toNat - 48)

def digitsToInt (ds : List Char) : Int :=
  ds.foldl (fun acc c => acc * 10 + digitVal c) 0

/-- Model of `strconv.Atoi`: an optional sign followed by one or more ASCII
digits; anything else is a parse error (`none`).  (Go additionally rejects
values outside the `int` range; every caller in the verified code range-checks
the result immediately, so overflow and parse errors are not distinguished.) -/
def goAtoi (s : String) : Option Int :=
  match s.toList with
  | [] => none
  | c :: rest =>
    let (neg, digits) :=
      if c = '-' then (true, rest)
      else if c = '+' then (false, rest)
      else (false, c :: rest)
    if digits.isEmpty then none
    else if digits.all Char.isDigit then
      some (if neg then -(digitsToInt digits) else digitsToInt digits)
    else none

/-! ## External time libraries as parameters -/

/-- The external time facilities used by `CalculateNextRun` that are not code
of this repository: `time.LoadLocation` (tzdata lookup; `none` models a lookup
error), `time.ParseDuration` (result in seconds; `none` models a parse
error), and the `robfig/cron` parser (on success, the schedule's `Next`
function from instant to instant; `none` models a malformed expression). -/
structure TimeLib where
  loadLocation : String → Option GoLocation
  parseDuration : String → Option Int
  cronParse : String → Option (Int → Int)

/-- `loc, err := time.LoadLocation(timezone); if err != nil { loc = time.UTC }`
from `CalculateNextRun`. -/
def resolveLoc (lib : TimeLib) (timezone : String) : GoLocation :=
  (lib.loadLocation timezone).getD (GoLocation.fixed 0)

/-! ## `parseOnce`: the four accepted date-time literal formats

Go tries `2006-01-02T15:04:05`, `2006-01-02T15:04`, `2006-01-02 15:04:05`,
`2006-01-02 15:04` in order with `time.ParseInLocation`.  The reference
layouts use a fixed 4-digit year, fixed 2-digit month/day/minute/second, a
1-or-2-digit hour, and require the whole input consumed; parsed fields are
range-checked (month 1–12, day valid for the month, hour 0–23,
minute/second 0–59). -/

def readFixedDigits : Nat → List Char → Option (Int × List Char)
  | 0, cs => some (0, cs)
  | n + 1, c :: cs =>
    if c.isDigit then
      match readFixedDigits n cs with
      | some (v, rest) => some (digitVal c * (10 ^ n : Nat) + v, rest)
      | none => none
    else none
  | _ + 1, [] => none

/-- A 1-or-2-digit number (Go's `getnum` with `fixed = false`, as used for the
hour field `15`). -/
def readFlexDigits : List Char → Option (Int × List Char)
  | c1 :: c2 :: rest =>
    if c1.isDigit then
      if c2.isDigit then some (digitVal c1 * 10 + digitVal c2, rest)
      else some (digitVal c1, c2 :: rest)
    else none
  | [c1] => if c1.isDigit then some (digitVal c1, []) else none
  | [] => none

def expectChar (c : Char) : List Char → Option (List Char)
  | c' :: rest => if c' = c then some rest else none
  | [] => none

def isLeapYear (y : Int) : Bool :=
  (y % 4 = 0 && y % 100 ≠ 0) || y % 400 = 0

def daysInMonth (y m : Int) : Int :=
  if m = 2 then (if isLeapYear y then 29 else 28)
  else if m = 4 ∨ m = 6 ∨ m = 9 ∨ m = 11 then 30
  else 31

structure DateTimeFields where
  year : Int
  month : Int
  day : Int
  hour : Int
  minute : Int
  second : Int
deriving DecidableEq

/-- One reference layout `2006-01-02<sep>15:04[:05]`, applied to the whole
input, with Go's field range validation. -/
def tryFormat (sep : Char) (withSec : Bool) (s : String) : Option DateTimeFields := do
  let cs := s.toList
  let (y, cs) ← readFixedDigits 4 cs
  let cs ← expectChar '-' cs
  let (mo, cs) ← readFixedDigits 2 cs
  let cs ← expectChar '-' cs
  let (d, cs) ← readFixedDigits 2 cs
  let cs ← expectChar sep cs
  let (h, cs) ← readFlexDigits cs
  let cs ← expectChar ':' cs
  let (mi, cs) ← readFixedDigits 2 cs
  let (sec, cs) ←
    if withSec then do
      let cs ← expectChar ':' cs
      readFixedDigits 2 cs
    else
      pure (0, cs)
  if cs.isEmpty then
    if 1 ≤ mo ∧ mo ≤ 12 ∧ 1 ≤ d ∧ d ≤ daysInMonth y mo ∧
        0 ≤ h ∧ h ≤ 23 ∧ 0 ≤ mi ∧ mi ≤ 59 ∧ 0 ≤ sec ∧ sec ≤ 59 then
      some ⟨y, mo, d, h, mi, sec⟩
    else none
  else none

/-- Days from the epoch 1970-01-01 to the civil date `y-m-d` (the standard
civil-from-days inverse used by calendar arithmetic; agrees with Go's
`time.Date` date-to-absolute computation). -/
def daysFromCivil (y m d : Int) : Int :=
  let y' := if m ≤ 2 then y - 1 else y
  let era := y' / 400
  let yoe := y' - era * 400
  let mp := if m > 2 then m - 3 else m + 9
  let doy := (153 * mp + 2) / 5 + d - 1
  let doe := yoe * 365 + yoe / 4 - yoe / 100 + doy
  era * 146097 + doe - 719468

/-- The instant `time.ParseInLocation` produces for the parsed civil fields:
the zone's civil-time→instant mapping applied to the field's local calendar
seconds. -/
def fieldsToInstant (loc : GoLocation) (f : DateTimeFields) : Int :=
  loc.date (daysFromCivil f.year f.month f.day * 86400 +
    f.hour * 3600 + f.minute * 60 + f.second)

/-- `parseOnce` from `reminder/store.go`: try the four formats in order; the
first that parses wins; the `from` instant is not an input. -/
def parseOnce (value : String) (loc : GoLocation) : Except String Int :=
  match tryFormat 'T' true value with
  | some f => .ok (fieldsToInstant loc f)
  | none =>
    match tryFormat 'T' false value with
    | some f => .ok (fieldsToInstant loc f)
    | none =>
      match tryFormat ' ' true value with
      | some f => .ok (fieldsToInstant loc f)
      | none =>
        match tryFormat ' ' false value with
        | some f => .ok (fieldsToInstant loc f)
        | none => .error ("invalid once format: " ++ value ++ " (expected YYYY-MM-DDTHH:MM)")

/-! ## `parseDaily`, `parseHourly`, `parseInterval`, `parseCron` -/

/-- The field-parsing half of `parseDaily`: `strings.Split(value, ":")` must
give exactly two parts, each `strconv.Atoi`-parsed and range-checked
(`0 ≤ hour ≤ 23`, `0 ≤ min ≤ 59`). -/
def parseDailyFields (value : String) : Except String (Int × Int) :=
  match (splitOnChar ':' value.toList).map List.asString with
  | [hs, ms] =>
    match goAtoi hs with
    | none => .error ("invalid hour: " ++ hs)
    | some hour =>
      if hour < 0 ∨ hour > 23 then .error ("invalid hour: " ++ hs)
      else
        match goAtoi ms with
        | none => .error ("invalid minute: " ++ ms)
        | some min =>
          if min < 0 ∨ min > 59 then .error ("invalid minute: " ++ ms)
          else .ok (hour, min)
  | _ => .error ("invalid daily format: " ++ value ++ " (expected HH:MM)")

/-- `parseDaily` from `reminder/store.go`: build `hour:min:00` on `now`'s
calendar date in the zone (`time.Date(now.Year(), now.Month(), now.Day(),
hour, min, 0, 0, loc)` — the zone's civil→instant mapping applied to the
requested wall clock on `now`'s local day); if that instant is not strictly
after `now`, add 24 hours (`next.Add(24 * time.Hour)`, an absolute-duration
addition). -/
def parseDaily (value : String) (now : Int) (loc : GoLocation) : Except String Int := do
  let (hour, min) ← parseDailyFields value
  let next := loc.date (localDay loc now * 86400 + hour * 3600 + min * 60)
  pure (if now < next then next else next + 86400)

/-- `parseHourly` from `reminder/store.go`: `strconv.Atoi(value)` with
`0 ≤ min ≤ 59`; build `min` within `now`'s current hour
(`time.Date(..., now.Hour(), min, 0, 0, loc)`); if not strictly after `now`,
add one hour. -/
def parseHourly (value : String) (now : Int) (loc : GoLocation) : Except String Int :=
  match goAtoi value with
  | none => .error ("invalid minute: " ++ value ++ " (expected 0-59)")
  | some min =>
    if min < 0 ∨ min > 59 then .error ("invalid minute: " ++ value ++ " (expected 0-59)")
    else
      let next := loc.date (localCivil loc now / 3600 * 3600 + min * 60)
      .ok (if now < next then next else next + 3600)

/-- `parseInterval` from `reminder/store.go`: `time.ParseDuration`, reject
non-positive durations, result `now + dur`. -/
def parseInterval (lib : TimeLib) (value : String) (now : Int) : Except String Int :=
  match lib.parseDuration value with
  | none => .error ("invalid interval: " ++ value ++ " (expected duration like 30m, 2h)")
  | some dur =>
    if dur ≤ 0 then .error ("interval must be positive: " ++ value)
    else .ok (now + dur)

/-- `parseCron` from `reminder/store.go`: parse with the 5-field
`robfig/cron` parser and return `schedule.Next(now)`. -/
def parseCron (lib : TimeLib) (value : String) (now : Int) : Except String Int :=
  match lib.cronParse value with
  | none => .error ("invalid cron expression: " ++ value)
  | some next => .ok (next now)

/-- `CalculateNextRun` from `reminder/store.go`.  `LoadLocation` failure falls
back to UTC; `now := from.In(loc)` is the same instant viewed in the zone, so
only the offset enters the per-kind computations. -/
def CalculateNextRun (lib : TimeLib) (scheduleType scheduleValue timezone : String)
    (fromT : Int) : Except String Int :=
  let loc := resolveLoc lib timezone
  match scheduleType with
  | "once" => parseOnce scheduleValue loc
  | "daily" => parseDaily scheduleValue fromT loc
  | "hourly" => parseHourly scheduleValue fromT loc
  | "interval" => parseInterval lib scheduleValue fromT
  | "cron" => parseCron lib scheduleValue fromT
  | _ => .error ("unknown schedule type: " ++ scheduleType)

/-! ## Task store (`reminder/store.go`)

The `reminders` SQLite table is modelled as a list of rows; `id` is the
primary key.  `ListDue` and `MarkExecuted` take the current instant as an
explicit parameter (the Go code reads `CURRENT_TIMESTAMP` resp.
`time.Now()`). -/

structure Reminder where
  id : Int
  prompt : String
  scheduleType : String
  scheduleValue : String
  timezone : String
  recipient : String
  enabled : Bool
  lastRun : Option Int
  nextRun : Int
  createdAt : Int
deriving DecidableEq

/-- `Store.GetByID`: `SELECT ... WHERE id = ?` (first matching row, `none` for
`sql.ErrNoRows`). -/
def GetByID (st : List Reminder) (id : Int) : Option Reminder :=
  st.find? (fun r => r.id == id)

/-- `Store.ListDue`: `SELECT ... WHERE enabled = 1 AND next_run <=
CURRENT_TIMESTAMP ORDER BY next_run ASC`. -/
def ListDue (st : List Reminder) (now : Int) : List Reminder :=
  (st.filter (fun r => r.enabled && decide (r.nextRun ≤ now))).mergeSort
    (fun a b => decide (a.nextRun ≤ b.nextRun))

/-- `Store.MarkExecuted`: look the task up; absent ids fail; `once` tasks get
`last_run = now, enabled = 0` (next_run untouched); any other kind recomputes
`next_run` via `CalculateNextRun` from `now` (propagating its error without
touching the table) and gets `last_run = now, next_run = next`.  The SQL
`UPDATE ... WHERE id = ?` touches every row with that id. -/
def MarkExecuted (lib : TimeLib) (st : List Reminder) (id : Int) (now : Int) :
    Except String (List Reminder) :=
  match GetByID st id with
  | none => .error ("reminder " ++ toString id ++ " not found")
  | some r =>
    if r.scheduleType = "once" then
      .ok (st.map fun x =>
        if x.id = id then { x with lastRun := some now, enabled := false } else x)
    else
      match CalculateNextRun lib r.scheduleType r.scheduleValue r.timezone now with
      | .error e => .error ("calculate next run: " ++ e)
      | .ok next =>
        .ok (st.map fun x =>
          if x.id = id then { x with lastRun := some now, nextRun := next } else x)

/-! ## Reminder scheduler (`Scheduler.executeReminder`, `Scheduler.RunNow`)

`executeFunc` is the orchestration-loop entry point `(recipient, prompt) →
(result, error)` and `sendFunc` the outbound delivery `(recipient, message) →
error`; both are external collaborators of the scheduler and enter as
parameters.  The scheduler's observable effect on the store is the returned
row list. -/

structure SchedulerEnv where
  executeFunc : String → String → Except String String
  sendFunc : String → String → Except String Unit

/-- The message `executeReminder` delivers: the loop's result, or on a loop
error the synthesized failure report `"Reminder <id> failed: <err>"`. -/
def reminderMessage (env : SchedulerEnv) (r : Reminder) : String :=
  match env.executeFunc r.recipient r.prompt with
  | .ok result => result
  | .error e => "Reminder " ++ toString r.id ++ " failed: " ++ e

/-- `Scheduler.executeReminder`: run the prompt (errors become a failure
report), attempt delivery; a delivery error logs and returns early, leaving
the store untouched; on delivery success `MarkExecuted` runs (its error is
logged, store untouched in that case). -/
def executeReminder (lib : TimeLib) (env : SchedulerEnv) (now : Int)
    (st : List Reminder) (r : Reminder) : List Reminder :=
  match env.sendFunc r.recipient (reminderMessage env r) with
  | .error _ => st
  | .ok _ =>
    match MarkExecuted lib st r.id now with
    | .ok st' => st'
    | .error _ => st

/-- `Scheduler.RunNow`: look the task up by id (absent → error) and run it
through `executeReminder` unconditionally — no check of `enabled` or
`nextRun`. -/
def RunNow (lib : TimeLib) (env : SchedulerEnv) (now : Int)
    (st : List Reminder) (id : Int) : Except String (List Reminder) :=
  match GetByID st id with
  | none => .error ("reminder " ++ toString id ++ " not found")
  | some r => .ok (executeReminder lib env now st r)

/-! ## Plugin manager (`plugins/plugins.go`)

A plugin directory is modelled by what `loadPlugin` observes of it: whether
`definition.json` could be read, whether it parsed, the parsed JSON fields
(each optional — absent fields leave the Go struct field at its zero value),
and the result of `findExecutable`. -/

/-- The fields of a parsed `definition.json`, each `none` when the key is
absent from the JSON object. -/
structure DescriptorJSON where
  name : Option String
  description : Option String
  timeout : Option Int
  enabled : Option Bool
deriving DecidableEq

structure PluginDefinition where
  name : String
  description : String
  timeout : Int
  enabled : Bool
deriving DecidableEq

/-- `json.Unmarshal` into Go's `PluginDefinition`: absent keys leave the zero
value — `""` for strings, `0` for `Timeout`, and `false` for `Enabled`. -/
def unmarshalDefinition (j : DescriptorJSON) : PluginDefinition :=
  { name := j.name.getD ""
    description := j.description.getD ""
    timeout := j.timeout.getD 0
    enabled := j.enabled.getD false }

structure Plugin where
  definition : PluginDefinition
  executable : String
  dir : String
deriving DecidableEq

/-- A plugin subdirectory as observed by `loadPlugin`: `descriptor = none`
models an unreadable/absent `definition.json`, `some none` a file that fails
`json.Unmarshal`, `some (some j)` a parse producing fields `j`;
`executable` is the result of `findExecutable` (`none` when no candidate
entry point is executable). -/
structure PluginDir where
  dirName : String
  descriptor : Option (Option DescriptorJSON)
  executable : Option String
deriving DecidableEq

/-- `Manager.loadPlugin`: read and parse `definition.json`, default a zero
`Timeout` to 30, and require an executable entry point. -/
def loadPlugin (d : PluginDir) : Except String Plugin :=
  match d.descriptor with
  | none => .error "read definition"
  | some none => .error "parse definition"
  | some (some j) =>
    let def0 := unmarshalDefinition j
    let def1 := if def0.timeout = 0 then { def0 with timeout := 30 } else def0
    match d.executable with
    | none => .error "no executable found"
    | some exe => .ok { definition := def1, executable := exe, dir := d.dirName }

/-- Go map assignment `m[k] = v` on an association-list model. -/
def mapSet (m : List (String × α)) (k : String) (v : α) : List (String × α) :=
  if (m.find? (fun p => p.1 == k)).isSome then
    m.map (fun p => if p.1 == k then (k, v) else p)
  else m ++ [(k, v)]

/-- Go map lookup `m[k]`. -/
def mapGet (m : List (String × α)) (k : String) : Option α :=
  (m.find? (fun p => p.1 == k)).map (·.2)

/-- `Manager.loadPlugins` over the subdirectory entries: load each, skip
failures (logged), and register only plugins whose parsed `Enabled` is true. -/
def loadPlugins (dirs : List PluginDir) : List (String × Plugin) :=
  dirs.foldl
    (fun acc d =>
      match loadPlugin d with
      | .error _ => acc
      | .ok p => if p.definition.enabled then mapSet acc p.definition.name p else acc)
    []

/-- An in-process tool's observable behaviour.  `exec ctx args` is
`SetContext`-then-`Execute` when `ctx = some chatID` (as `ExecuteWithContext`
does for a `ContextAwareTool`) and a bare `Execute` when `ctx = none` (as
`Execute` does, and as `ExecuteWithContext` does for a tool that is not
context-aware — such a tool ignores `ctx`). -/
structure InternalTool where
  exec : Option String → String → Except String String

/-- The registry state of `plugins.Manager`: the two name-keyed maps. -/
structure Manager where
  plugins : List (String × Plugin)
  internalTools : List (String × InternalTool)

/-- `Manager.ExecuteWithContext`: internal tools are consulted first (with the
chat context bound); otherwise the external plugin map; an unknown name fails
with `unknown plugin`.  Spawning the external process is not code of this
repository, so the runner enters as the parameter `run`. -/
def ExecuteWithContext (run : Plugin → String → Except String String)
    (m : Manager) (name argsJSON chatID : String) : Except String String :=
  match mapGet m.internalTools name with
  | some t => t.exec (some chatID) argsJSON
  | none =>
    match mapGet m.plugins name with
    | none => .error ("unknown plugin: " ++ name)
    | some p => run p argsJSON

/-- `Manager.Execute`: as `ExecuteWithContext` but without binding a context
on internal tools. -/
def Execute (run : Plugin → String → Except String String)
    (m : Manager) (name argsJSON : String) : Except String String :=
  match mapGet m.internalTools name with
  | some t => t.exec none argsJSON
  | none =>
    match mapGet m.plugins name with
    | none => .error ("unknown plugin: " ++ name)
    | some p => run p argsJSON

/-! ## Conversation orchestration loop (`Handler.HandleMessage`)

The loop's interaction with the LLM is modelled by a finite script of
responses: element `k` is the reply of the `k+1`-st successful `llm.Chat`
call, and an exhausted script models a `Chat` error (which aborts the turn,
as in the Go code).  `dispatch name args chatID` is
`plugins.ExecuteWithContext`.  The message list threaded through the loop is
exactly the Go `messages` slice. -/

structure ToolCall where
  id : String
  callType : String
  name : String
  arguments : String
deriving DecidableEq

structure Message where
  role : String
  content : String
  toolCalls : List ToolCall
  toolCallID : String
deriving DecidableEq

structure LLMResponse where
  content : String
  toolCalls : List ToolCall
deriving DecidableEq

/-- `Handler.executeToolWithContext`: dispatch and convert an error into the
text `"Error: <err>"` — the result is always a plain string, never a failure. -/
def executeToolWithContext (dispatch : String → String → String → Except String String)
    (name argsJSON chatID : String) : String :=
  match dispatch name argsJSON chatID with
  | .ok result => result
  | .error e => "Error: " ++ e

/-- The tool-role entry appended for one requested call `tc`:
`{Role: "tool", Content: <result or error text>, ToolCallID: tc.ID}`. -/
def toolMessage (dispatch : String → String → String → Except String String)
    (chatID : String) (tc : ToolCall) : Message :=
  { role := "tool"
    content := executeToolWithContext dispatch tc.name tc.arguments chatID
    toolCalls := []
    toolCallID := tc.id }

/-- The assistant-role entry recording a round's requested calls:
`{Role: "assistant", ToolCalls: resp.ToolCalls}`. -/
def assistantToolMessage (calls : List ToolCall) : Message :=
  { role := "assistant", content := "", toolCalls := calls, toolCallID := "" }

/-- The `for` loop of `Handler.HandleMessage`: each round sends `messages` to
the LLM; a reply without tool calls terminates the turn with its content;
otherwise the assistant entry and then one tool entry per requested call (in
request order) are appended and the loop repeats. -/
def handleLoop (dispatch : String → String → String → Except String String)
    (chatID : String) (script : List LLMResponse) (messages : List Message) :
    Except String (String × List Message) :=
  match script with
  | [] => .error "llm chat"
  | resp :: rest =>
    if resp.toolCalls.isEmpty then .ok (resp.content, messages)
    else
      handleLoop dispatch chatID rest
        (messages ++ assistantToolMessage resp.toolCalls ::
          resp.toolCalls.map (toolMessage dispatch chatID))

/-! ## Concrete instances used by witnesses -/

/-- A `TimeLib` whose zone lookup always fails (so `CalculateNextRun` falls
back to UTC) and whose duration/cron parsers always fail. -/
def lib0 : TimeLib :=
  { loadLocation := fun _ => none
    parseDuration := fun _ => none
    cronParse := fun _ => none }

/-! ## Helper lemmas -/

theorem parseDailyFields_bounds (value : String) (hh mm : Int)
    (hp : parseDailyFields value = .ok (hh, mm)) :
    0 ≤ hh ∧ hh ≤ 23 ∧ 0 ≤ mm ∧ mm ≤ 59 := by
  unfold parseDailyFields at hp
  repeat' split at hp
  all_goals simp only [Except.ok.injEq, Prod.mk.injEq, reduceCtorEq] at hp
  obtain ⟨h1, h2⟩ := hp
  subst h1
  subst h2
  omega

/-! ## Claims about the schedule calculus -/

/-- America/Los_Angeles over the November 2024 fall-back: DST ended
2024-11-03 02:00 local, i.e. at instant 1730624400 (09:00 UTC), the offset
moving from PDT (−25200) to PST (−28800).  `date` follows Go's `time.Date`
lookup-and-adjust: a requested civil time is interpreted with the PDT offset
when that interpretation lands before the transition, otherwise with PST. -/
def losAngelesFall2024 : GoLocation :=
  { offsetAt := fun t => if t < 1730624400 then -25200 else -28800
    date := fun l => if l + 25200 < 1730624400 then l + 25200 else l + 28800 }

/-- A `TimeLib` that resolves the program's default zone name to the
transition zone above. -/
def libLA : TimeLib :=
  { loadLocation := fun s =>
      if s = "America/Los_Angeles" then some losAngelesFall2024 else none
    parseDuration := fun _ => none
    cronParse := fun _ => none }

/-- C4 counterexample: the valid schedule value `08:00` in the program's
default zone America/Los_Angeles, with `now` = 2024-11-02 09:00:00 PDT
(1730563200): today's 08:00 PDT has passed, the code adds 24 absolute hours,
and the clocks fall back overnight, so the returned instant 1730646000 reads
**07:00** on the configured zone's wall clock — not the exact `HH:MM` the
claim asserts for every timezone. -/
theorem CalculateNextRun_daily_dst_cex :
    parseDailyFields "08:00" = .ok (8, 0)
    ∧ CalculateNextRun libLA "daily" "08:00" "America/Los_Angeles" 1730563200 =
        .ok 1730646000
    ∧ localHour (resolveLoc libLA "America/Los_Angeles") 1730646000 = 7
    ∧ localMinute (resolveLoc libLA "America/Los_Angeles") 1730646000 = 0 :=
  ⟨rfl, rfl, rfl, rfl⟩

/-- C4 amended: for every daily schedule value that parses as a valid `HH:MM`
(`0 ≤ HH ≤ 23`, `0 ≤ MM ≤ 59`), every instant `now`, and every **timezone
whose UTC offset is constant** (no DST transition, e.g. UTC or any fixed
zone), `CalculateNextRun` for kind `daily` returns an instant strictly after
`now`, at most 24 hours later, whose wall clock in the configured zone is
exactly `HH:MM` (seconds zero). -/
theorem CalculateNextRun_daily_fixed_offset_spec (lib : TimeLib)
    (timezone value : String) (off now next hh mm : Int)
    (hoff : ∀ t, (resolveLoc lib timezone).offsetAt t = off)
    (hdate : ∀ l, (resolveLoc lib timezone).date l = l - off)
    (hf : parseDailyFields value = .ok (hh, mm))
    (hrun : CalculateNextRun lib "daily" value timezone now = .ok next) :
    now < next ∧ next ≤ now + 86400 ∧
      localHour (resolveLoc lib timezone) next = hh ∧
      localMinute (resolveLoc lib timezone) next = mm ∧
      localSecond (resolveLoc lib timezone) next = 0 := by
  obtain ⟨hh0, hh23, hm0, hm59⟩ := parseDailyFields_bounds value hh mm hf
  unfold CalculateNextRun parseDaily at hrun
  rw [hf] at hrun
  simp only [bind, Except.bind, pure, Except.pure, Except.ok.injEq] at hrun
  unfold localHour localMinute localSecond localSecOfDay localDay localCivil at *
  simp only [hoff, hdate] at hrun ⊢
  split at hrun <;> omega

/-- C4 amended witness: schedule `daily:08:00`, zone UTC (via the
failing-lookup fallback, a constant-offset zone), `now = 2024-01-15T09:00:00Z`
gives `2024-01-16T08:00:00Z` — the §8 scenario of the spec. -/
theorem CalculateNextRun_daily_fixed_offset_spec_witness :
    (1705309200 : Int) < 1705392000 ∧ (1705392000 : Int) ≤ 1705309200 + 86400 ∧
      localHour (resolveLoc lib0 "UTC") 1705392000 = 8 ∧
      localMinute (resolveLoc lib0 "UTC") 1705392000 = 0 ∧
      localSecond (resolveLoc lib0 "UTC") 1705392000 = 0 :=
  CalculateNextRun_daily_fixed_offset_spec lib0 "UTC" "08:00" 0
    1705309200 1705392000 8 0 (fun _ => rfl) (fun _ => rfl) (by rfl) (by rfl)

/-- C9: for kind `once`, `CalculateNextRun` does not depend on the `from`
instant at all, and the returned instant can lie at or before `from`: with
value `2020-01-01T00:00` (UTC) and `from = 1700000000` (2023-11-14T22:13:20Z)
the result `1577836800` is in the past, so a `once` task whose date-time has
passed is immediately due — the strictly-after guarantee of the other kinds
does not hold for `once`. -/
theorem CalculateNextRun_once_ignores_from :
    (∀ (lib : TimeLib) (value timezone : String) (f1 f2 : Int),
        CalculateNextRun lib "once" value timezone f1 =
          CalculateNextRun lib "once" value timezone f2)
    ∧ CalculateNextRun lib0 "once" "2020-01-01T00:00" "UTC" 1700000000 =
        .ok 1577836800
    ∧ (1577836800 : Int) ≤ 1700000000 :=
  ⟨fun _ _ _ _ _ => rfl, rfl, by norm_num⟩

/-! ## Claims about the task store -/

/-- C5: every task returned by `ListDue` is enabled with `nextRun ≤ now`,
every stored task satisfying both is returned, and the result is ordered by
`nextRun` ascending. -/
theorem ListDue_spec (st : List Reminder) (now : Int) :
    (∀ r ∈ ListDue st now, r.enabled = true ∧ r.nextRun ≤ now)
    ∧ (∀ r ∈ st, r.enabled = true → r.nextRun ≤ now → r ∈ ListDue st now)
    ∧ List.Pairwise (fun a b => a.nextRun ≤ b.nextRun) (ListDue st now) := by
  unfold ListDue
  refine ⟨?_, ?_, ?_⟩
  · intro r hr
    rw [List.mem_mergeSort, List.mem_filter] at hr
    simpa using hr.2
  · intro r hr he hn
    rw [List.mem_mergeSort, List.mem_filter]
    exact ⟨hr, by simp [he, hn]⟩
  · refine List.Pairwise.imp ?_
      (List.sorted_mergeSort ?_ ?_
        (st.filter (fun r => r.enabled && decide (r.nextRun ≤ now))))
    · intro a b h
      simpa using h
    · intro a b c hab hbc
      simp only [decide_eq_true_eq] at *
      omega
    · intro a b
      simp only [Bool.or_eq_true, decide_eq_true_eq]
      omega

/-- A due, enabled task together with a later-due one, for the C5 witness. -/
def rEarly : Reminder :=
  { id := 1, prompt := "check tasks", scheduleType := "daily", scheduleValue := "08:00"
    timezone := "UTC", recipient := "dm:alice", enabled := true
    lastRun := none, nextRun := 10, createdAt := 0 }

def rLate : Reminder :=
  { id := 2, prompt := "status", scheduleType := "hourly", scheduleValue := "30"
    timezone := "UTC", recipient := "", enabled := true
    lastRun := none, nextRun := 50, createdAt := 1 }

/-- C5 witness: a due enabled task is in the `ListDue` output. -/
theorem ListDue_spec_witness : rEarly ∈ ListDue [rLate, rEarly] 100 :=
  (ListDue_spec [rLate, rEarly] 100).2.1 rEarly (by simp) rfl (by decide)

/-- C6: `MarkExecuted` on an existing `once` task sets `lastRun` to the
completion instant and clears `enabled`, leaving `nextRun` and every other
field of the row unchanged (the record update touches no other field). -/
theorem MarkExecuted_once_spec (lib : TimeLib) (st : List Reminder)
    (id now : Int) (r : Reminder)
    (hget : GetByID st id = some r) (honce : r.scheduleType = "once") :
    MarkExecuted lib st id now =
      .ok (st.map fun x =>
        if x.id = id then { x with lastRun := some now, enabled := false } else x) := by
  unfold MarkExecuted
  rw [hget]
  simp [honce]

def rOnce : Reminder :=
  { id := 3, prompt := "ping", scheduleType := "once", scheduleValue := "2020-01-01T00:00"
    timezone := "UTC", recipient := "dm:bob", enabled := true
    lastRun := none, nextRun := 1577836800, createdAt := 0 }

/-- C6 witness: marking the concrete `once` task executed at `t = 42` only
sets `lastRun := 42` and `enabled := false`; `nextRun` stays `1577836800`. -/
theorem MarkExecuted_once_spec_witness :
    MarkExecuted lib0 [rOnce] 3 42 =
      .ok [{ rOnce with lastRun := some 42, enabled := false }] :=
  MarkExecuted_once_spec lib0 [rOnce] 3 42 rOnce rfl rfl

/-- C7: `MarkExecuted` on an existing non-`once` task whose schedule is valid
at the completion instant sets `lastRun = now` and
`nextRun = CalculateNextRun(kind, value, tz, now)`, leaving `enabled` and
every other field unchanged. -/
theorem MarkExecuted_recurring_spec (lib : TimeLib) (st : List Reminder)
    (id now next : Int) (r : Reminder)
    (hget : GetByID st id = some r) (hkind : r.scheduleType ≠ "once")
    (hcalc : CalculateNextRun lib r.scheduleType r.scheduleValue r.timezone now =
      .ok next) :
    MarkExecuted lib st id now =
      .ok (st.map fun x =>
        if x.id = id then { x with lastRun := some now, nextRun := next } else x) := by
  unfold MarkExecuted
  rw [hget]
  simp [hkind, hcalc]

/-- C7 witness: the daily task `rEarly` marked executed at
2024-01-15T09:00:00Z gets `nextRun = CalculateNextRun = 2024-01-16T08:00:00Z`
and keeps `enabled = true`. -/
theorem MarkExecuted_recurring_spec_witness :
    MarkExecuted lib0 [rEarly] 1 1705309200 =
      .ok [{ rEarly with lastRun := some 1705309200, nextRun := 1705392000 }] :=
  MarkExecuted_recurring_spec lib0 [rEarly] 1 1705309200 1705392000 rEarly rfl
    (by decide) rfl

/-! ## Claims about the reminder scheduler -/

/-- Delivery always fails (e.g. the messaging backend is down); prompt
execution succeeds. -/
def envSendFail : SchedulerEnv :=
  { executeFunc := fun _ _ => .ok "result text"
    sendFunc := fun _ _ => .error "network down" }

/-- Delivery always succeeds; prompt execution succeeds. -/
def envSendOk : SchedulerEnv :=
  { executeFunc := fun _ _ => .ok "result text"
    sendFunc := fun _ _ => .ok () }

/-- C1 counterexample: for the due, enabled `once` task `rOnce`, a delivery
failure makes `executeReminder` return with the store untouched —
`MarkExecuted` is never reached, `lastRun` stays unset, `enabled` stays true
and `nextRun` is unchanged, so the same occurrence fires again on the next
tick.  This refutes the claim that `markExecuted` runs regardless of delivery
success. -/
theorem executeReminder_delivery_failure_skips_mark :
    executeReminder lib0 envSendFail 1700000000 [rOnce] rOnce = [rOnce]
    ∧ rOnce.lastRun = none ∧ rOnce.enabled = true ∧ rOnce.nextRun = 1577836800 :=
  ⟨rfl, rfl, rfl, rfl⟩

/-- C1 amended: `executeReminder` calls `MarkExecuted` only when delivery
succeeds.  On a delivery error it returns early with the store untouched (the
occurrence will re-fire); on delivery success the store becomes the
`MarkExecuted` result.  A prompt-execution error alone does not skip marking:
it is folded into the delivered failure-report message. -/
theorem executeReminder_marks_only_on_delivery (lib : TimeLib)
    (env : SchedulerEnv) (now : Int) (st : List Reminder) (r : Reminder) :
    (∀ e, env.sendFunc r.recipient (reminderMessage env r) = .error e →
      executeReminder lib env now st r = st)
    ∧ (env.sendFunc r.recipient (reminderMessage env r) = .ok () →
        ∀ st', MarkExecuted lib st r.id now = .ok st' →
          executeReminder lib env now st r = st') := by
  constructor
  · intro e he
    unfold executeReminder
    rw [he]
  · intro hok st' hm
    unfold executeReminder
    rw [hok, hm]

/-- C1 amended witness: with delivery succeeding, the concrete `once` task is
marked executed (`lastRun` set, `enabled` cleared). -/
theorem executeReminder_marks_only_on_delivery_witness :
    executeReminder lib0 envSendOk 1700000000 [rOnce] rOnce =
      [{ rOnce with lastRun := some 1700000000, enabled := false }] :=
  (executeReminder_marks_only_on_delivery lib0 envSendOk 1700000000 [rOnce] rOnce).2
    rfl _ rfl

/-- C10: `RunNow` fails exactly when no task with the id exists; when the task
exists it executes it unconditionally — no `enabled` or `nextRun` hypothesis
appears — and on delivery success the store advances through the same
`MarkExecuted` path the poller uses. -/
theorem RunNow_spec (lib : TimeLib) (env : SchedulerEnv) (now : Int)
    (st : List Reminder) (id : Int) :
    (GetByID st id = none →
      RunNow lib env now st id = .error ("reminder " ++ toString id ++ " not found"))
    ∧ (∀ r, GetByID st id = some r →
        RunNow lib env now st id = .ok (executeReminder lib env now st r))
    ∧ (∀ r st', GetByID st id = some r →
        env.sendFunc r.recipient (reminderMessage env r) = .ok () →
        MarkExecuted lib st r.id now = .ok st' →
        RunNow lib env now st id = .ok st') := by
  refine ⟨?_, ?_, ?_⟩
  · intro hnone
    unfold RunNow
    rw [hnone]
  · intro r hr
    unfold RunNow
    rw [hr]
  · intro r st' hr hsend hm
    unfold RunNow
    simp only [hr]
    unfold executeReminder
    rw [hsend, hm]

/-- A disabled task whose `nextRun` lies far in the future. -/
def rDisabled : Reminder :=
  { id := 7, prompt := "ping", scheduleType := "once", scheduleValue := "2020-01-01T00:00"
    timezone := "UTC", recipient := "dm:bob", enabled := false
    lastRun := none, nextRun := 999999999999, createdAt := 0 }

/-- C10 witness: `RunNow` executes the disabled task with a future `nextRun`
and (delivery succeeding) advances it through `MarkExecuted`. -/
theorem RunNow_spec_witness :
    RunNow lib0 envSendOk 5 [rDisabled] 7 =
      .ok [{ rDisabled with lastRun := some 5, enabled := false }] :=
  (RunNow_spec lib0 envSendOk 5 [rDisabled] 7).2.2 rDisabled
    [{ rDisabled with lastRun := some 5, enabled := false }] rfl rfl rfl

/-! ## Claims about the plugin manager -/

/-- A plugin directory whose `definition.json` parses, which has an
executable entry point, and which omits the `enabled` field. -/
def omittedEnabledDir : PluginDir :=
  { dirName := "/plugins.d/myplugin"
    descriptor := some (some
      { name := some "myplugin"
        description := some "demo plugin"
        timeout := none
        enabled := none })
    executable := some "/plugins.d/myplugin/run" }

/-- C2: contrary to the documented default-true semantics of `enabled`, a
descriptor that omits the field unmarshals to the Go zero value `false`
(`loadPlugin` defaults only `Timeout`), so `loadPlugins` silently drops the
plugin: nothing is registered. -/
theorem loadPlugins_omitted_enabled_skipped :
    loadPlugin omittedEnabledDir =
      .ok { definition :=
              { name := "myplugin", description := "demo plugin"
                timeout := 30, enabled := false }
            executable := "/plugins.d/myplugin/run"
            dir := "/plugins.d/myplugin" }
    ∧ loadPlugins [omittedEnabledDir] = [] :=
  ⟨rfl, rfl⟩

/-- C8: dispatch of a name registered neither as an internal tool nor as an
external plugin fails with the unknown-plugin error, for every argument
string and context — on both dispatch entry points. -/
theorem Execute_unknown_tool (run : Plugin → String → Except String String)
    (m : Manager) (name : String)
    (h1 : mapGet m.internalTools name = none)
    (h2 : mapGet m.plugins name = none) (argsJSON chatID : String) :
    ExecuteWithContext run m name argsJSON chatID =
        .error ("unknown plugin: " ++ name)
    ∧ Execute run m name argsJSON = .error ("unknown plugin: " ++ name) := by
  unfold ExecuteWithContext Execute
  rw [h1, h2]
  exact ⟨rfl, rfl⟩

/-- An external runner that always succeeds, for the C8 witness: the outcome
does not depend on it. -/
def run0 : Plugin → String → Except String String := fun _ _ => .ok "{}"

def plugin0 : Plugin :=
  { definition := { name := "ps", description := "processes", timeout := 30, enabled := true }
    executable := "/plugins.d/ps/run"
    dir := "/plugins.d/ps" }

def tool0 : InternalTool := { exec := fun _ _ => .ok "ok" }

/-- A registry with one external plugin and one internal tool. -/
def mgr0 : Manager :=
  { plugins := [("ps", plugin0)]
    internalTools := [("reminder", tool0)] }

/-- C8 witness: the unregistered name `bogus` fails on both entry points in
the populated registry `mgr0`, with a nonempty argument string. -/
theorem Execute_unknown_tool_witness :
    ExecuteWithContext run0 mgr0 "bogus" "\x7b\"action\": \"list\"\x7d" "dm:alice" =
        .error "unknown plugin: bogus"
    ∧ Execute run0 mgr0 "bogus" "\x7b\"action\": \"list\"\x7d" =
        .error "unknown plugin: bogus" :=
  Execute_unknown_tool run0 mgr0 "bogus" rfl rfl "\x7b\"action\": \"list\"\x7d" "dm:alice"

/-! ## Claims about the orchestration loop -/

/-- C3: in a round whose LLM reply requests tool calls, the loop appends one
assistant entry recording exactly the requested calls, then one tool-role
entry per requested call, in request order, each carrying the id of the call
it answers; a dispatch error becomes `"Error: <err>"` text inside that entry,
and the loop continues with the rest of the script either way — it is never
aborted by a dispatch failure. -/
theorem handleLoop_tool_round
    (dispatch : String → String → String → Except String String)
    (chatID : String) (resp : LLMResponse) (rest : List LLMResponse)
    (msgs : List Message) (h : resp.toolCalls ≠ []) :
    handleLoop dispatch chatID (resp :: rest) msgs =
      handleLoop dispatch chatID rest
        (msgs ++ assistantToolMessage resp.toolCalls ::
          resp.toolCalls.map (toolMessage dispatch chatID))
    ∧ (assistantToolMessage resp.toolCalls).role = "assistant"
    ∧ (assistantToolMessage resp.toolCalls).toolCalls = resp.toolCalls
    ∧ (resp.toolCalls.map (toolMessage dispatch chatID)).length =
        resp.toolCalls.length
    ∧ (∀ i (hi : i < resp.toolCalls.length),
        (resp.toolCalls.map (toolMessage dispatch chatID)).get
            ⟨i, by simpa using hi⟩ =
          { role := "tool"
            content := executeToolWithContext dispatch
              (resp.toolCalls.get ⟨i, hi⟩).name
              (resp.toolCalls.get ⟨i, hi⟩).arguments chatID
            toolCalls := []
            toolCallID := (resp.toolCalls.get ⟨i, hi⟩).id })
    ∧ (∀ tc e, dispatch tc.name tc.arguments chatID = .error e →
        (toolMessage dispatch chatID tc).content = "Error: " ++ e) := by
  refine ⟨?_, rfl, rfl, List.length_map _ _, ?_, ?_⟩
  · conv_lhs => rw [handleLoop]
    rw [if_neg]
    simpa using h
  · intro i hi
    simp [List.getElem_map, toolMessage]
  · intro tc e he
    simp [toolMessage, executeToolWithContext, he]

/-- A dispatcher that fails on every call (every tool unknown). -/
def dispatchFail : String → String → String → Except String String :=
  fun name _ _ => .error ("unknown plugin: " ++ name)

def tcA : ToolCall :=
  { id := "call_a", callType := "function", name := "alpha", arguments := "\x7b\x7d" }

def tcB : ToolCall :=
  { id := "call_b", callType := "function", name := "beta", arguments := "\x7b\x7d" }

/-- A reply requesting calls `[a, b]`, then a terminal plain-text reply. -/
def respTools : LLMResponse := { content := "", toolCalls := [tcA, tcB] }

def respFinal : LLMResponse := { content := "done", toolCalls := [] }

/-- C3 witness: with every dispatch failing, the round still extends the
message list with the assistant entry and the two tool entries and proceeds
to the next round. -/
theorem handleLoop_tool_round_witness :
    handleLoop dispatchFail "dm:alice" [respTools, respFinal] [] =
      handleLoop dispatchFail "dm:alice" [respFinal]
        ([] ++ assistantToolMessage respTools.toolCalls ::
          respTools.toolCalls.map (toolMessage dispatchFail "dm:alice")) :=
  (handleLoop_tool_round dispatchFail "dm:alice" respTools [respFinal] []
    (by decide)).1

end Tron
